import Mathlib

/-!
Shallow embedding of the client-side session/message store of the chat
application (src/app/page.tsx, the latest revision of the page, which is the
authority; src/unnamed/part_001 is an earlier revision of the same page and
src/unnamed/part_000 the API route).

Modelling conventions:
* Timestamps are integers (milliseconds since the epoch).  The code stores
  `new Date().toLocaleString()` strings and re-parses them in
  `handleEditMessage`; the arithmetic `(now - messageTime) / 60000 > 5`
  performed on millisecond values is embedded as `now - timestamp > 300000`
  (real division by the positive constant 60000 is monotone, so the two
  comparisons agree).
* `string | null` React state becomes `Option String`; the JS comparison
  `s.id === currentSessionId` is `currentSessionId = some s.id`, which is
  false when the pointer is null, exactly as `=== null` against a string.
* The JS falsy test `!topic` on a string holds exactly for the empty string.
* `Array.prototype.map((x, idx) => ...)` with an index is `jsMapIdx`;
  `Array.prototype.sort` with the comparator
  `(b.isPinned ? 1 : 0) - (a.isPinned ? 1 : 0)` is, by ECMAScript stability,
  the stable pinned-first partition `pinSort`.
* A JS object used as an emoji-count map is an association list without
  duplicate keys; `{...obj, [k]: v}` is `setReaction`, `obj?.[k] || 0` is
  `getReaction`.
* The whole `handleSubmit` transaction (synchronous phase, the awaited remote
  call, and the settlement handler) is one function taking the remote
  outcome as a parameter; the generated id `Date.now().toString()` and the
  two wall-clock readings are parameters as well.  Crucially, the settlement
  handlers close over the `currentSessionId` value captured at entry, which
  the embedding reproduces with the `captured` binding.
* Thrown JS exceptions (unguarded dereference of `undefined`) are `none` of
  an `Option` result.
-/

/-- The `role` union type of a `Message` (`"user" | "assistant"`). -/
inductive Role where
  | user : Role
  | assistant : Role
deriving DecidableEq, Repr

/-- The `Message` record of src/app/page.tsx (lines 11-18).  The optional
fields `isPinned` and `reactions` are always initialized by the code of this
revision, so they are modelled as total; `lastEdited` is absent until the
first edit. -/
structure Message where
  role : Role
  content : String
  timestamp : Int
  isPinned : Bool
  reactions : List (String × Nat)
  lastEdited : Option Int
deriving DecidableEq, Repr

/-- The `Session` record of src/app/page.tsx (lines 20-24). -/
structure Session where
  id : String
  name : String
  messages : List Message
deriving DecidableEq, Repr

/-- The store state: the `sessions` list and the nullable
`currentSessionId` pointer (React state, lines 28-29). -/
structure Store where
  sessions : List Session
  currentSessionId : Option String
deriving DecidableEq, Repr

/-- Auxiliary for `jsMapIdx`, threading the running index. -/
def jsMapIdxAux (f : Nat → α → α) : Nat → List α → List α
  | _, [] => []
  | k, a :: as => f k a :: jsMapIdxAux f (k + 1) as

/-- JS `array.map((x, idx) => f(idx, x))`. -/
def jsMapIdx (f : Nat → α → α) (l : List α) : List α :=
  jsMapIdxAux f 0 l

/-- JS `s.slice(0, n)` (UTF-16 code units modelled as characters). -/
def jsSlice (s : String) (n : Nat) : String :=
  String.mk (s.data.take n)

/-- JS `msg.reactions?.[emoji] || 0`: the count stored for `emoji`, zero when
absent. -/
def getReaction (rs : List (String × Nat)) (emoji : String) : Nat :=
  ((rs.find? (fun p => p.1 = emoji)).map (fun p => p.2)).getD 0

/-- JS `{...reactions, [emoji]: n}`: replace the binding in place when the
key is present, append it otherwise. -/
def setReaction : List (String × Nat) → String → Nat → List (String × Nat)
  | [], emoji, n => [(emoji, n)]
  | (k, v) :: rest, emoji, n =>
    if k = emoji then (emoji, n) :: rest else (k, v) :: setReaction rest emoji n

/-- JS `messages.sort((a, b) => (b.isPinned ? 1 : 0) - (a.isPinned ? 1 : 0))`.
ECMAScript `sort` is stable, and for this two-valued comparator the stable
result is exactly the pinned messages in their original order followed by the
unpinned ones in their original order. -/
def pinSort (msgs : List Message) : List Message :=
  msgs.filter (fun m => m.isPinned) ++ msgs.filter (fun m => !m.isPinned)

/-- The fixed apology string of the failure handler (line 115). -/
def apology : String := "Sorry, something went wrong. Try again!"

/-- The user `Message` built at line 71. -/
def mkUserMessage (topic : String) (now : Int) : Message :=
  { role := .user, content := topic, timestamp := now, isPinned := false,
    reactions := [], lastEdited := none }

/-- The assistant `Message` built at lines 96-102 / 113-119. -/
def mkAssistantMessage (text : String) (now : Int) : Message :=
  { role := .assistant, content := text, timestamp := now, isPinned := false,
    reactions := [], lastEdited := none }

/-- `getCurrentSession` (line 56): `sessions.find((s) => s.id ===
currentSessionId) || null`. -/
def getCurrentSession (st : Store) : Option Session :=
  st.sessions.find? (fun s => st.currentSessionId = some s.id)

/-- The `handleSubmit` transaction (lines 67-129), from the guard `if
(!topic) return` through the settlement of the awaited `axios.post`.
`outcome` is the settlement of the remote call (`.ok text` for a 2xx
response, `.error e` for a rejection); `newId` is the value of
`Date.now().toString()`; `now` and `settle` are the two wall-clock readings.
Returns the final store and whether the remote call was dispatched.

The settlement handlers compare `s.id === currentSessionId` against the
binding captured when the closure was created, i.e. the value at entry
(`captured`), not the React state updated by `setCurrentSessionId`. -/
def handleSubmit (st : Store) (topic : String) (newId : String)
    (now settle : Int) (outcome : Except String String) : Store × Bool :=
  if topic = "" then (st, false)
  else
    let userMessage := mkUserMessage topic now
    let captured := st.currentSessionId
    let st1 : Store :=
      match captured with
      | none =>
        let newSession : Session :=
          { id := newId,
            name := if jsSlice topic 20 = "" then "New Chat" else jsSlice topic 20,
            messages := [userMessage] }
        { sessions := st.sessions ++ [newSession], currentSessionId := some newId }
      | some cid =>
        { st with sessions := st.sessions.map (fun s =>
            if s.id = cid then { s with messages := s.messages ++ [userMessage] } else s) }
    let responseText := match outcome with
      | .ok text => text
      | .error _ => apology
    let assistantMessage := mkAssistantMessage responseText settle
    ({ st1 with sessions := st1.sessions.map (fun s =>
        if captured = some s.id then
          { s with messages := s.messages ++ [assistantMessage] } else s) },
     true)

/-- `handleDeleteSession` (lines 138-141). -/
def handleDeleteSession (st : Store) (id : String) : Store :=
  { sessions := st.sessions.filter (fun s => s.id ≠ id),
    currentSessionId :=
      if st.currentSessionId = some id then none else st.currentSessionId }

/-- `togglePinMessage` (lines 152-166): silent return when the pointer is
null; otherwise flip `isPinned` at `messageIndex` and re-sort the current
session's messages pinned-first. -/
def togglePinMessage (st : Store) (messageIndex : Nat) : Store :=
  match st.currentSessionId with
  | none => st
  | some cid =>
    { st with sessions := st.sessions.map (fun s =>
        if s.id = cid then
          { s with messages := pinSort (jsMapIdx (fun idx msg =>
              if idx = messageIndex then { msg with isPinned := !msg.isPinned }
              else msg) s.messages) }
        else s) }

/-- `handleEditMessage` (lines 168-195).  The dereference
`getCurrentSession()!.messages[messageIndex].timestamp` throws when the
current session is missing or the index is out of range — modelled as
`none`.  The guard `(now - messageTime) / 60000 > 5` aborts with an alert
and no state change; otherwise `content` is replaced and `lastEdited`
stamped on the message at `messageIndex` of every session whose id matches
the pointer. -/
def handleEditMessage (st : Store) (messageIndex : Nat) (content : String)
    (now : Int) : Option Store :=
  match st.currentSessionId with
  | none => some st
  | some cid =>
    match (getCurrentSession st).bind (fun s => s.messages[messageIndex]?) with
    | none => none
    | some msg =>
      if now - msg.timestamp > 300000 then some st
      else some { st with sessions := st.sessions.map (fun s =>
          if s.id = cid then
            { s with messages := jsMapIdx (fun idx m =>
                if idx = messageIndex then
                  { m with content := content, lastEdited := some now }
                else m) s.messages }
          else s) }

/-- JSON values, the transport between `JSON.stringify` at the save site
(line 51) and `JSON.parse` at the hydration site (line 43).  The string
rendering and grammar belong to the platform's JSON library; the embedding
works with the value tree it transports. -/
inductive Json where
  | null : Json
  | bool : Bool → Json
  | num : Int → Json
  | str : String → Json
  | arr : List Json → Json
  | obj : List (String × Json) → Json

/-- String tag a `Role` serializes to. -/
def roleString : Role → String
  | .user => "user"
  | .assistant => "assistant"

/-- JSON form of the `reactions` object of a message. -/
def encodeReactions (rs : List (String × Nat)) : Json :=
  .obj (rs.map (fun p => (p.1, .num (p.2 : Int))))

/-- JSON form of a `Message` record, field for field. -/
def encodeMessage (m : Message) : Json :=
  .obj [("role", .str (roleString m.role)),
        ("content", .str m.content),
        ("timestamp", .num m.timestamp),
        ("isPinned", .bool m.isPinned),
        ("reactions", encodeReactions m.reactions),
        ("lastEdited", match m.lastEdited with
          | none => .null
          | some t => .num t)]

/-- JSON form of a `Session` record. -/
def encodeSession (s : Session) : Json :=
  .obj [("id", .str s.id),
        ("name", .str s.name),
        ("messages", .arr (s.messages.map encodeMessage))]

/-- JSON form of the whole session collection (what `JSON.stringify(sessions)`
produces). -/
def encodeSessions (l : List Session) : Json :=
  .arr (l.map encodeSession)

/-- Reading a `Role` back from its JSON tag. -/
def decodeRole : Json → Option Role
  | .str "user" => some .user
  | .str "assistant" => some .assistant
  | _ => none

/-- Reading a reaction map back from its JSON object fields. -/
def decodeReactions : List (String × Json) → Option (List (String × Nat))
  | [] => some []
  | (k, .num v) :: rest =>
    if 0 ≤ v then (decodeReactions rest).map (fun r => (k, v.toNat) :: r)
    else none
  | _ => none

/-- Reading a `Message` back from the JSON shape `encodeMessage` writes (the
code itself performs no validation — `JSON.parse` output is cast to the
`Session[]` type — so hydration is the shape-directed inverse of the
serialized form). -/
def decodeMessage : Json → Option Message
  | .obj [("role", r), ("content", .str c), ("timestamp", .num t),
          ("isPinned", .bool p), ("reactions", .obj rs), ("lastEdited", le)] =>
    (decodeRole r).bind (fun role =>
      (decodeReactions rs).bind (fun reacts =>
        (match le with
          | .null => some none
          | .num x => some (some x)
          | _ => none).map (fun lastEdited =>
          { role := role, content := c, timestamp := t, isPinned := p,
            reactions := reacts, lastEdited := lastEdited })))
  | _ => none

/-- Reading a message list back from its JSON array elements. -/
def decodeMessages : List Json → Option (List Message)
  | [] => some []
  | j :: rest =>
    (decodeMessage j).bind (fun m =>
      (decodeMessages rest).map (fun ms => m :: ms))

/-- Reading a `Session` back from the JSON shape `encodeSession` writes. -/
def decodeSession : Json → Option Session
  | .obj [("id", .str i), ("name", .str n), ("messages", .arr ms)] =>
    (decodeMessages ms).map (fun msgs => { id := i, name := n, messages := msgs })
  | _ => none

/-- Reading a session list back from its JSON array elements. -/
def decodeSessionList : List Json → Option (List Session)
  | [] => some []
  | j :: rest =>
    (decodeSession j).bind (fun s =>
      (decodeSessionList rest).map (fun ss => s :: ss))

/-- Reading the session collection back from the stored JSON value. -/
def decodeSessions : Json → Option (List Session)
  | .arr l => decodeSessionList l
  | _ => none

/-- The snapshot write of the save effect (line 51): `if (sessions.length >
0) localStorage.setItem("chatSessions", JSON.stringify(sessions))`.  `stored`
is the previous value under the `"chatSessions"` key (`none` when the key is
absent); an empty collection skips the write and leaves it untouched. -/
def saveSnapshot (sessions : List Session) (stored : Option Json) : Option Json :=
  if sessions.length > 0 then some (encodeSessions sessions) else stored

/-- The hydration effect (lines 42-43): `const savedSessions =
localStorage.getItem("chatSessions"); if (savedSessions)
setSessions(JSON.parse(savedSessions))`.  An absent key leaves the initial
empty state; a stored value is decoded back into the session list. -/
def hydrate (stored : Option Json) : List Session :=
  match stored with
  | none => []
  | some j => (decodeSessions j).getD []

/-- `addReaction` (lines 197-220). -/
def addReaction (st : Store) (messageIndex : Nat) (emoji : String) : Store :=
  match st.currentSessionId with
  | none => st
  | some cid =>
    { st with sessions := st.sessions.map (fun s =>
        if s.id = cid then
          { s with messages := jsMapIdx (fun idx msg =>
              if idx = messageIndex then
                { msg with reactions := setReaction msg.reactions emoji (getReaction msg.reactions emoji + 1) }
              else msg) s.messages }
        else s) }

/-- A message list is pin-sorted: no unpinned message precedes a pinned one. -/
def pinnedFirst (l : List Message) : Prop :=
  List.Pairwise (fun a b => b.isPinned = true → a.isPinned = true) l

/-- The role of each message of a session, in sequence order. -/
def sessionRoles (s : Session) : List Role :=
  s.messages.map (fun m => m.role)

/-- The roles of every message of every session of the store. -/
def storeRoles (st : Store) : List (List Role) :=
  st.sessions.map sessionRoles

/-- Example user message used to instantiate the theorems on concrete data. -/
def exUserMsg : Message :=
  { role := .user, content := "hello", timestamp := 0, isPinned := false,
    reactions := [], lastEdited := none }

/-- Example assistant message (timestamp 0, no reactions). -/
def exAsstMsg : Message :=
  { role := .assistant, content := "orig", timestamp := 0, isPinned := false,
    reactions := [], lastEdited := none }

/-- Example store: one session "s1" holding one user message, selected. -/
def exStore : Store :=
  { sessions := [{ id := "s1", name := "hello", messages := [exUserMsg] }],
    currentSessionId := some "s1" }

/-- Example store whose selected session holds a single assistant message. -/
def exStoreA : Store :=
  { sessions := [{ id := "s1", name := "n", messages := [exAsstMsg] }],
    currentSessionId := some "s1" }

/-- Two unpinned messages, for exercising the pin sort. -/
def exM0 : Message :=
  { role := .user, content := "m0", timestamp := 0, isPinned := false,
    reactions := [], lastEdited := none }

/-- Second example message, unpinned. -/
def exM1 : Message :=
  { role := .assistant, content := "m1", timestamp := 0, isPinned := false,
    reactions := [], lastEdited := none }

/-- Pinned variant of `exM1`. -/
def exM1p : Message :=
  { role := .assistant, content := "m1", timestamp := 0, isPinned := true,
    reactions := [], lastEdited := none }

/-- Store whose selected session holds `[exM0, exM1]`, both unpinned. -/
def exStoreP : Store :=
  { sessions := [{ id := "s1", name := "n", messages := [exM0, exM1] }],
    currentSessionId := some "s1" }

/-- Store whose selected session holds `[exM0, exM1p]`: an unpinned message
followed by a pinned one, so the list is not pin-sorted. -/
def exStoreQ : Store :=
  { sessions := [{ id := "s1", name := "n", messages := [exM0, exM1p] }],
    currentSessionId := some "s1" }

theorem jsMapIdxAux_getElem? (f : Nat → α → α) (l : List α) (k j : Nat) :
    (jsMapIdxAux f k l)[j]? = (l[j]?).map (f (k + j)) := by
  induction l generalizing k j with
  | nil => simp [jsMapIdxAux]
  | cons a as ih =>
    cases j with
    | zero => simp [jsMapIdxAux]
    | succ j =>
      simp only [jsMapIdxAux, List.getElem?_cons_succ]
      rw [ih]
      have h : k + 1 + j = k + (j + 1) := by omega
      rw [h]

theorem jsMapIdx_getElem? (f : Nat → α → α) (l : List α) (j : Nat) :
    (jsMapIdx f l)[j]? = (l[j]?).map (f j) := by
  have h := jsMapIdxAux_getElem? f l 0 j
  simpa [jsMapIdx] using h

theorem jsMapIdxAux_length (f : Nat → α → α) (l : List α) (k : Nat) :
    (jsMapIdxAux f k l).length = l.length := by
  induction l generalizing k with
  | nil => rfl
  | cons a as ih => simp [jsMapIdxAux, ih]

theorem jsMapIdx_length (f : Nat → α → α) (l : List α) :
    (jsMapIdx f l).length = l.length :=
  jsMapIdxAux_length f l 0

theorem jsMapIdx_update_out_of_range (g : α → α) (i : Nat) (l : List α)
    (h : l.length ≤ i) :
    jsMapIdx (fun idx m => if idx = i then g m else m) l = l := by
  apply List.ext_getElem?
  intro n
  rw [jsMapIdx_getElem?]
  rcases Nat.lt_or_ge n l.length with hn | hn
  · have hne : n ≠ i := by omega
    simp [hne]
  · simp [List.getElem?_eq_none hn]

theorem map_jsMapIdxAux_of_preserve (f : Nat → α → α) (g : α → β)
    (h : ∀ j a, g (f j a) = g a) (l : List α) (k : Nat) :
    (jsMapIdxAux f k l).map g = l.map g := by
  induction l generalizing k with
  | nil => rfl
  | cons a as ih => simp [jsMapIdxAux, h, ih]

theorem map_jsMapIdx_of_preserve (f : Nat → α → α) (g : α → β)
    (h : ∀ j a, g (f j a) = g a) (l : List α) :
    (jsMapIdx f l).map g = l.map g :=
  map_jsMapIdxAux_of_preserve f g h l 0

theorem list_map_noop (l : List α) (f : α → α) (h : ∀ a ∈ l, f a = a) :
    l.map f = l := by
  induction l with
  | nil => rfl
  | cons a as ih =>
    simp only [List.map_cons, h a (by simp)]
    rw [ih (fun b hb => h b (by simp [hb]))]

theorem forall2_map_map (R : β → β → Prop) (f g : α → β) (l : List α)
    (h : ∀ a ∈ l, R (f a) (g a)) :
    List.Forall₂ R (l.map f) (l.map g) := by
  induction l with
  | nil => exact List.Forall₂.nil
  | cons a as ih =>
    exact List.Forall₂.cons (h a (by simp)) (ih (fun b hb => h b (by simp [hb])))

theorem pinSort_perm (l : List Message) : List.Perm (pinSort l) l :=
  List.filter_append_perm _ l

theorem pinSort_pinnedFirst (l : List Message) : pinnedFirst (pinSort l) := by
  unfold pinnedFirst pinSort
  rw [List.pairwise_append]
  refine ⟨?_, ?_, ?_⟩
  · apply List.pairwise_of_forall_mem_list
    intro a ha b _
    intro _
    have := (List.mem_filter.mp ha).2
    simpa using this
  · apply List.pairwise_of_forall_mem_list
    intro a _ b hb
    intro hpin
    have := (List.mem_filter.mp hb).2
    simp [hpin] at this
  · intro a ha b _
    intro _
    have := (List.mem_filter.mp ha).2
    simpa using this

theorem getReaction_setReaction_self (rs : List (String × Nat)) (e : String) (n : Nat) :
    getReaction (setReaction rs e n) e = n := by
  induction rs with
  | nil => simp [setReaction, getReaction, List.find?]
  | cons p rest ih =>
    obtain ⟨k, v⟩ := p
    by_cases h : k = e
    · simp [setReaction, h, getReaction, List.find?]
    · simpa [setReaction, h, getReaction, List.find?] using ih

theorem getReaction_setReaction_other (rs : List (String × Nat)) (e x : String) (n : Nat)
    (h : x ≠ e) :
    getReaction (setReaction rs e n) x = getReaction rs x := by
  induction rs with
  | nil => simp [setReaction, getReaction, List.find?, Ne.symm h]
  | cons p rest ih =>
    obtain ⟨k, v⟩ := p
    by_cases hk : k = e
    · subst hk
      simp [setReaction, getReaction, List.find?, Ne.symm h]
    · by_cases hx : k = x
      · subst hx
        simp [setReaction, hk, getReaction, List.find?]
      · simpa [setReaction, hk, getReaction, List.find?, hx] using ih

theorem jsSlice_ne_empty (s : String) (h : s ≠ "") : jsSlice s 20 ≠ "" := by
  cases s with
  | mk data =>
    cases data with
    | nil => exact absurd rfl h
    | cons c cs =>
      intro hcontra
      have h2 : (jsSlice (String.mk (c :: cs)) 20).data = ("" : String).data := by
        rw [hcontra]
      simp [jsSlice] at h2

theorem decodeRole_roleString (r : Role) : decodeRole (.str (roleString r)) = some r := by
  cases r <;> rfl

theorem decodeReactions_encodeReactions (rs : List (String × Nat)) :
    decodeReactions (rs.map (fun p => (p.1, Json.num (p.2 : Int)))) = some rs := by
  induction rs with
  | nil => rfl
  | cons p rest ih =>
    obtain ⟨k, v⟩ := p
    simp [decodeReactions, ih, Int.toNat_natCast, Int.natCast_nonneg]

theorem decodeMessage_encodeMessage (m : Message) :
    decodeMessage (encodeMessage m) = some m := by
  obtain ⟨role, content, timestamp, isPinned, reactions, lastEdited⟩ := m
  cases lastEdited <;>
    simp [encodeMessage, decodeMessage, encodeReactions, decodeRole_roleString,
      decodeReactions_encodeReactions]

theorem decodeMessages_map_encodeMessage (ms : List Message) :
    decodeMessages (ms.map encodeMessage) = some ms := by
  induction ms with
  | nil => rfl
  | cons m rest ih => simp [decodeMessages, decodeMessage_encodeMessage, ih]

theorem decodeSession_encodeSession (s : Session) :
    decodeSession (encodeSession s) = some s := by
  obtain ⟨i, n, msgs⟩ := s
  simp [encodeSession, decodeSession, decodeMessages_map_encodeMessage]

theorem decodeSessionList_map_encodeSession (l : List Session) :
    decodeSessionList (l.map encodeSession) = some l := by
  induction l with
  | nil => rfl
  | cons s rest ih => simp [decodeSessionList, decodeSession_encodeSession, ih]

theorem decodeSessions_encodeSessions (l : List Session) :
    decodeSessions (encodeSessions l) = some l := by
  simp [encodeSessions, decodeSessions, decodeSessionList_map_encodeSession]

/-- C1: the claim says that after the remote call settles, exactly one
assistant message is appended to the session that received the user message,
including a session freshly created by that submission.  Evaluating the
embedded `handleSubmit` transaction at the spec's own end-to-end input — an
empty store, topic "space exploration", remote success "Mars has two moons."
— shows the freshly created session still holds exactly its one user message
after settlement: the settlement handler compares every session id against
the `currentSessionId` binding captured before the session was created,
which is still null, so the assistant message is appended to no session. -/
theorem C1_fresh_session_loses_reply :
    ((handleSubmit { sessions := [], currentSessionId := none }
        "space exploration" "1739000000000" 0 5
        (Except.ok "Mars has two moons.")).1).sessions.map
      (fun s => s.messages.map (fun m => (m.role, m.content)))
      = [[(Role.user, "space exploration")]] := by
  rfl

/-- C2 counterexample: the claim says every whitespace-only topic is rejected
silently with no session created and no remote call dispatched.  Submitting
the single-space topic " " to an empty store dispatches the remote call and
creates a session: the guard `if (!topic) return` only rejects the empty
string, and " " is truthy in JS. -/
theorem C2_counterexample :
    (handleSubmit { sessions := [], currentSessionId := none } " " "1" 0 0
        (Except.ok "r")).2 = true ∧
    ((handleSubmit { sessions := [], currentSessionId := none } " " "1" 0 0
        (Except.ok "r")).1).sessions.length = 1 := by
  constructor <;> rfl

/-- C2 (amended): only the literally empty topic is rejected silently — the
store is returned unchanged and no remote call is dispatched; every
non-empty topic, whitespace-only ones included, proceeds and dispatches the
remote call. -/
theorem C2_only_empty_topic_rejected (st : Store) (newId : String)
    (now settle : Int) (outcome : Except String String) (topic : String) :
    (topic = "" → handleSubmit st topic newId now settle outcome = (st, false)) ∧
    (topic ≠ "" → (handleSubmit st topic newId now settle outcome).2 = true) := by
  constructor
  · intro h
    subst h
    rfl
  · intro h
    unfold handleSubmit
    rw [if_neg h]

/-- Witness for the amended C2 at concrete inputs. -/
theorem C2_witness :
    handleSubmit { sessions := [], currentSessionId := none } "" "1" 0 0
        (Except.ok "r") = ({ sessions := [], currentSessionId := none }, false) ∧
    (handleSubmit { sessions := [], currentSessionId := none } " " "1" 0 0
        (Except.ok "r")).2 = true := by
  have h1 := (C2_only_empty_topic_rejected { sessions := [], currentSessionId := none }
    "1" 0 0 (Except.ok "r") "").1 rfl
  have h2 := (C2_only_empty_topic_rejected { sessions := [], currentSessionId := none }
    "1" 0 0 (Except.ok "r") " ").2 (by decide)
  exact ⟨h1, h2⟩

/-- C5: submitting a non-empty topic with no current session selected creates
exactly one new session, appended after the existing ones, holding exactly
the one user message whose content is the literal topic; its name is the
first 20 characters of the topic and its fresh id becomes the
current-session pointer. -/
theorem C5_new_session_shape (st : Store) (topic newId : String)
    (now settle : Int) (outcome : Except String String)
    (h1 : topic ≠ "") (h2 : st.currentSessionId = none) :
    (handleSubmit st topic newId now settle outcome).1.currentSessionId = some newId ∧
    (handleSubmit st topic newId now settle outcome).1.sessions =
      st.sessions ++ [{ id := newId, name := jsSlice topic 20,
                        messages := [mkUserMessage topic now] }] := by
  have hname : (if jsSlice topic 20 = "" then "New Chat" else jsSlice topic 20)
      = jsSlice topic 20 := if_neg (jsSlice_ne_empty topic h1)
  constructor
  · simp [handleSubmit, h1, h2]
  · simp [handleSubmit, h1, h2, hname]

/-- Witness for C5 at a concrete input. -/
theorem C5_witness :
    (handleSubmit { sessions := [], currentSessionId := none }
        "space exploration" "1739000000000" 0 5
        (Except.ok "Mars has two moons.")).1.currentSessionId = some "1739000000000" ∧
    (handleSubmit { sessions := [], currentSessionId := none }
        "space exploration" "1739000000000" 0 5
        (Except.ok "Mars has two moons.")).1.sessions =
      [] ++ [{ id := "1739000000000", name := jsSlice "space exploration" 20,
               messages := [mkUserMessage "space exploration" 0] }] :=
  C5_new_session_shape { sessions := [], currentSessionId := none }
    "space exploration" "1739000000000" 0 5 (Except.ok "Mars has two moons.")
    (by decide) rfl

/-- C6: the save/load round trip is the identity on the session collection,
except that the snapshot write is skipped for an empty collection, leaving
the previously stored value untouched. -/
theorem C6_round_trip (sessions : List Session) (stored : Option Json) :
    (sessions = [] → saveSnapshot sessions stored = stored) ∧
    (sessions ≠ [] → hydrate (saveSnapshot sessions stored) = sessions) := by
  constructor
  · intro h
    subst h
    rfl
  · intro h
    have hlen : sessions.length > 0 := List.length_pos.mpr h
    simp [saveSnapshot, hlen, hydrate, decodeSessions_encodeSessions]

/-- Witness for C6: a non-empty collection survives the round trip, and the
empty collection leaves the stored value untouched. -/
theorem C6_witness :
    saveSnapshot [] (some (Json.str "prev")) = some (Json.str "prev") ∧
    hydrate (saveSnapshot [{ id := "s1", name := "hello", messages := [exUserMsg] }] none)
      = [{ id := "s1", name := "hello", messages := [exUserMsg] }] := by
  have h1 := (C6_round_trip [] (some (Json.str "prev"))).1 rfl
  have h2 := (C6_round_trip [{ id := "s1", name := "hello", messages := [exUserMsg] }] none).2
    (by simp)
  exact ⟨h1, h2⟩

/-- C8: `handleDeleteSession` keeps exactly the sessions whose id differs
from the deleted one; deleting the current session clears the pointer to
null (no other session is auto-selected), and deleting a non-current session
leaves the pointer unchanged. -/
theorem C8_delete_session (st : Store) (id : String) :
    (∀ s, s ∈ (handleDeleteSession st id).sessions ↔ (s ∈ st.sessions ∧ s.id ≠ id)) ∧
    (st.currentSessionId = some id →
      (handleDeleteSession st id).currentSessionId = none) ∧
    (st.currentSessionId ≠ some id →
      (handleDeleteSession st id).currentSessionId = st.currentSessionId) := by
  refine ⟨?_, ?_, ?_⟩
  · intro s
    simp [handleDeleteSession, List.mem_filter]
  · intro h
    simp [handleDeleteSession, h]
  · intro h
    simp [handleDeleteSession, h]

/-- Witness for C8 at concrete inputs: deleting the current session clears
the pointer, deleting an unknown id leaves it unchanged. -/
theorem C8_witness :
    (handleDeleteSession exStore "s1").currentSessionId = none ∧
    (handleDeleteSession exStore "zz").currentSessionId = exStore.currentSessionId := by
  have h1 := (C8_delete_session exStore "s1").2.1 (by decide)
  have h2 := (C8_delete_session exStore "zz").2.2 (by decide)
  exact ⟨h1, h2⟩


/-- C4: with a current session selected and an in-range message index,
`handleEditMessage` succeeds exactly when the elapsed time since the target
message's timestamp is at most 5 minutes (300000 ms).  On failure the store
is returned untouched — content and `lastEdited` unchanged; on success the
target message's content is replaced and `lastEdited` stamped with the edit
time, while every other field, message and session is preserved (the update
is applied at position `i` of each session whose id matches the pointer). -/
theorem C4_edit_window (st : Store) (cid : String) (s : Session) (i : Nat)
    (msg : Message) (c : String) (now : Int)
    (h1 : st.currentSessionId = some cid)
    (h2 : getCurrentSession st = some s)
    (h3 : s.messages[i]? = some msg) :
    (now - msg.timestamp > 300000 → handleEditMessage st i c now = some st) ∧
    (now - msg.timestamp ≤ 300000 →
      ∃ st', handleEditMessage st i c now = some st' ∧
        st'.currentSessionId = st.currentSessionId ∧
        ∀ (k : Nat) (sk : Session), st.sessions[k]? = some sk →
          ∃ sk' : Session, st'.sessions[k]? = some sk' ∧ sk'.id = sk.id ∧ sk'.name = sk.name ∧
            ∀ j : Nat, sk'.messages[j]? = (sk.messages[j]?).map (fun m =>
              if sk.id = cid ∧ j = i then
                { m with content := c, lastEdited := some now } else m)) := by
  have hunf : handleEditMessage st i c now =
      (if now - msg.timestamp > 300000 then some st
       else some { st with sessions := st.sessions.map (fun sk =>
          if sk.id = cid then
            { sk with messages := jsMapIdx (fun idx m =>
                if idx = i then
                  { m with content := c, lastEdited := some now }
                else m) sk.messages }
          else sk) }) := by
    unfold handleEditMessage
    rw [h1, h2]
    simp [h3]
  constructor
  · intro hlate
    rw [hunf, if_pos hlate]
  · intro hok
    have hnot : ¬ (now - msg.timestamp > 300000) := by omega
    rw [hunf, if_neg hnot]
    refine ⟨_, rfl, rfl, ?_⟩
    intro k sk hk
    by_cases hid : sk.id = cid
    · refine ⟨{ sk with messages := jsMapIdx (fun idx m =>
                  if idx = i then { m with content := c, lastEdited := some now }
                  else m) sk.messages }, ?_, rfl, rfl, ?_⟩
      · show (st.sessions.map _)[k]? = _
        rw [List.getElem?_map, hk]
        simp [hid]
      · intro j
        simp [jsMapIdx_getElem?, hid]
    · refine ⟨sk, ?_, rfl, rfl, ?_⟩
      · show (st.sessions.map _)[k]? = _
        rw [List.getElem?_map, hk]
        simp [hid]
      · intro j
        simp [hid]

/-- Witness for C4 at a concrete input: editing the message of `exStore`
400 seconds after its creation fails and leaves the store unchanged, and
editing it one second after creation succeeds. -/
theorem C4_witness :
    handleEditMessage exStore 0 "new" 400000 = some exStore ∧
    ∃ st', handleEditMessage exStore 0 "new" 1000 = some st' := by
  have hfail := (C4_edit_window exStore "s1"
    { id := "s1", name := "hello", messages := [exUserMsg] }
    0 exUserMsg "new" 400000 (by decide) (by decide) (by decide)).1 (by decide)
  have hok := (C4_edit_window exStore "s1"
    { id := "s1", name := "hello", messages := [exUserMsg] }
    0 exUserMsg "new" 1000 (by decide) (by decide) (by decide)).2 (by decide)
  obtain ⟨st', hst', -⟩ := hok
  exact ⟨hfail, st', hst'⟩

theorem addReaction_step (st : Store) (cid : String) (i k : Nat) (e : String)
    (sk : Session) (msg : Message)
    (h1 : st.currentSessionId = some cid)
    (hk : st.sessions[k]? = some sk) (hid : sk.id = cid)
    (hm : sk.messages[i]? = some msg) :
    ∃ (s' : Session) (m' : Message),
      (addReaction st i e).sessions[k]? = some s' ∧ s'.id = sk.id ∧
      s'.messages[i]? = some m' ∧
      m'.reactions = setReaction msg.reactions e (getReaction msg.reactions e + 1) ∧
      (addReaction st i e).currentSessionId = some cid := by
  have hunf : addReaction st i e =
      { st with sessions := st.sessions.map (fun s =>
          if s.id = cid then
            { s with messages := jsMapIdx (fun idx m =>
                if idx = i then
                  { m with reactions := setReaction m.reactions e (getReaction m.reactions e + 1) }
                else m) s.messages }
          else s) } := by
    unfold addReaction
    rw [h1]
  refine ⟨{ sk with messages := jsMapIdx (fun idx m =>
              if idx = i then
                { m with reactions := setReaction m.reactions e (getReaction m.reactions e + 1) }
              else m) sk.messages },
          { msg with reactions := setReaction msg.reactions e (getReaction msg.reactions e + 1) },
          ?_, rfl, ?_, rfl, ?_⟩
  · rw [hunf]
    show (st.sessions.map _)[k]? = _
    rw [List.getElem?_map, hk]
    simp [hid]
  · simp [jsMapIdx_getElem?, hm]
  · rw [hunf, h1]

/-- C7: with a current session selected and an in-range index, adding the
same reaction twice increments that emoji's counter by two over its prior
value (so an absent emoji reads 1 after the first call and 2 after the
second), and every distinct emoji's counter is untouched by both calls. -/
theorem C7_reaction_counts (st : Store) (cid : String) (i : Nat) (e x : String)
    (h1 : st.currentSessionId = some cid) :
    ∀ (k : Nat) (sk : Session) (msg : Message),
      st.sessions[k]? = some sk → sk.id = cid → sk.messages[i]? = some msg →
      ∃ (s1 s2 : Session) (m1 m2 : Message),
        (addReaction st i e).sessions[k]? = some s1 ∧ s1.messages[i]? = some m1 ∧
        (addReaction (addReaction st i e) i e).sessions[k]? = some s2 ∧
        s2.messages[i]? = some m2 ∧
        getReaction m1.reactions e = getReaction msg.reactions e + 1 ∧
        getReaction m2.reactions e = getReaction msg.reactions e + 2 ∧
        (x ≠ e → getReaction m1.reactions x = getReaction msg.reactions x ∧
          getReaction m2.reactions x = getReaction msg.reactions x) := by
  intro k sk msg hk hid hm
  obtain ⟨s1, m1, hs1, hid1, hm1, hr1, hc1⟩ :=
    addReaction_step st cid i k e sk msg h1 hk hid hm
  obtain ⟨s2, m2, hs2, hid2, hm2, hr2, hc2⟩ :=
    addReaction_step (addReaction st i e) cid i k e s1 m1 hc1 hs1
      (by rw [hid1, hid]) hm1
  have ge1 : getReaction m1.reactions e = getReaction msg.reactions e + 1 := by
    rw [hr1, getReaction_setReaction_self]
  have ge2 : getReaction m2.reactions e = getReaction msg.reactions e + 2 := by
    rw [hr2, getReaction_setReaction_self, ge1]
  refine ⟨s1, s2, m1, m2, hs1, hm1, hs2, hm2, ge1, ge2, ?_⟩
  intro hx
  constructor
  · rw [hr1, getReaction_setReaction_other _ _ _ _ hx]
  · rw [hr2, getReaction_setReaction_other _ _ _ _ hx,
      hr1, getReaction_setReaction_other _ _ _ _ hx]

/-- Witness for C7 at a concrete input: on the stored message of `exStore`
(no reactions yet), two thumbs-up reactions read count 1 then 2, and the
counter of a distinct emoji stays 0. -/
theorem C7_witness :
    ∃ (s1 s2 : Session) (m1 m2 : Message),
      (addReaction exStore 0 "+1").sessions[0]? = some s1 ∧
      s1.messages[0]? = some m1 ∧
      (addReaction (addReaction exStore 0 "+1") 0 "+1").sessions[0]? = some s2 ∧
      s2.messages[0]? = some m2 ∧
      getReaction m1.reactions "+1" = getReaction exUserMsg.reactions "+1" + 1 ∧
      getReaction m2.reactions "+1" = getReaction exUserMsg.reactions "+1" + 2 ∧
      ("smile" ≠ "+1" → getReaction m1.reactions "smile" = getReaction exUserMsg.reactions "smile" ∧
        getReaction m2.reactions "smile" = getReaction exUserMsg.reactions "smile") :=
  C7_reaction_counts exStore "s1" 0 "+1" "smile" (by decide) 0
    { id := "s1", name := "hello", messages := [exUserMsg] } exUserMsg
    (by decide) (by decide) (by decide)

/-- C9 counterexample: the claim says `togglePin` leaves the message
sequence's order unchanged.  On a session holding two unpinned messages
"m0", "m1", pinning index 1 moves "m1" to the front: `togglePinMessage`
re-sorts the stored list pinned-first after flipping the flag, so the
stored order changes. -/
theorem C9_counterexample :
    (togglePinMessage exStoreP 1).sessions.map
        (fun s => s.messages.map (fun m => (m.content, m.isPinned)))
      = [[("m1", true), ("m0", false)]] ∧
    (togglePinMessage exStoreP 1).sessions.map
        (fun s => s.messages.map (fun m => m.content))
      ≠ exStoreP.sessions.map (fun s => s.messages.map (fun m => m.content)) := by
  constructor <;> decide

/-- C9 (amended): with no current session `togglePin` is a silent no-op on
the whole store.  With a current session, it flips only the `isPinned` flag
of the message at the given position — every other field of that message
and every other message are unchanged, and non-matching sessions are
untouched — but the current session's stored message sequence is then
stably re-sorted with pinned messages first, so the original order is
preserved only when the flipped list is already pin-sorted. -/
theorem C9_toggle_pin (st : Store) (i : Nat) :
    (st.currentSessionId = none → togglePinMessage st i = st) ∧
    (∀ cid : String, st.currentSessionId = some cid →
      ∀ (k : Nat) (sk : Session), st.sessions[k]? = some sk →
        ∃ sk' : Session, (togglePinMessage st i).sessions[k]? = some sk' ∧
          sk'.id = sk.id ∧ sk'.name = sk.name ∧
          (sk.id ≠ cid → sk' = sk) ∧
          (sk.id = cid →
            ∃ flipped : List Message,
              (∀ j : Nat, flipped[j]? = (sk.messages[j]?).map (fun m =>
                if j = i then { m with isPinned := !m.isPinned } else m)) ∧
              List.Perm sk'.messages flipped ∧ pinnedFirst sk'.messages)) := by
  constructor
  · intro h
    unfold togglePinMessage
    rw [h]
  · intro cid h k sk hk
    have hunf : togglePinMessage st i = { st with sessions := st.sessions.map (fun s =>
        if s.id = cid then
          { s with messages := pinSort (jsMapIdx (fun idx msg =>
              if idx = i then { msg with isPinned := !msg.isPinned } else msg) s.messages) }
        else s) } := by
      unfold togglePinMessage
      rw [h]
    by_cases hid : sk.id = cid
    · refine ⟨{ sk with messages := pinSort (jsMapIdx (fun idx msg =>
                  if idx = i then { msg with isPinned := !msg.isPinned }
                  else msg) sk.messages) }, ?_, rfl, rfl, ?_, ?_⟩
      · rw [hunf]
        show (st.sessions.map _)[k]? = _
        rw [List.getElem?_map, hk]
        simp [hid]
      · intro hne
        exact absurd hid hne
      · intro _
        refine ⟨jsMapIdx (fun idx msg =>
          if idx = i then { msg with isPinned := !msg.isPinned }
          else msg) sk.messages, ?_, ?_, ?_⟩
        · intro j
          rw [jsMapIdx_getElem?]
        · exact pinSort_perm _
        · exact pinSort_pinnedFirst _
    · refine ⟨sk, ?_, rfl, rfl, fun _ => rfl, fun hc => absurd hc hid⟩
      rw [hunf]
      show (st.sessions.map _)[k]? = _
      rw [List.getElem?_map, hk]
      simp [hid]

/-- Witness for the amended C9 at concrete inputs: the no-session no-op and
the shape of the toggled session of `exStoreP`. -/
theorem C9_witness :
    togglePinMessage { sessions := [], currentSessionId := none } 0
      = { sessions := [], currentSessionId := none } ∧
    ∃ sk' : Session, (togglePinMessage exStoreP 1).sessions[0]? = some sk' ∧
      sk'.id = "s1" ∧ sk'.name = "n" := by
  have h0 := (C9_toggle_pin { sessions := [], currentSessionId := none } 0).1 rfl
  have h1 := (C9_toggle_pin exStoreP 1).2 "s1" (by decide) 0
    { id := "s1", name := "n", messages := [exM0, exM1] } (by decide)
  obtain ⟨sk', hsk', hid, hname, -, -⟩ := h1
  exact ⟨h0, sk', hsk', hid, hname⟩

theorem mem_of_getElem?_eq_some (l : List α) (n : Nat) (a : α)
    (h : l[n]? = some a) : a ∈ l := by
  obtain ⟨hlt, rfl⟩ := List.getElem?_eq_some.mp h
  exact List.getElem_mem hlt

/-- C10 counterexample: the claim says `togglePin` with an out-of-range
index leaves every session and every message unchanged.  On `exStoreQ`,
whose selected session stores an unpinned message before a pinned one,
toggling index 5 (out of range for the 2-message list) changes the store:
no flag is flipped, but the unconditional pinned-first re-sort swaps the
two messages. -/
theorem C10_counterexample : togglePinMessage exStoreQ 5 ≠ exStoreQ := by
  decide

/-- C10 (amended): with a current session selected and an index outside the
range of every session matching the pointer, `addReaction` is a strict
silent no-op and `editMessage` faults on the unguarded dereference of the
missing message's timestamp (the operation is not total over arbitrary
indices); `togglePin` flips nothing and leaves every message's fields
unchanged, but still re-sorts the matching session's stored sequence
pinned-first, so it is a strict no-op only when the list is already
pin-sorted. -/
theorem C10_out_of_range (st : Store) (cid : String) (s : Session) (i : Nat)
    (e c : String) (now : Int)
    (h1 : st.currentSessionId = some cid)
    (h2 : getCurrentSession st = some s)
    (h3 : ∀ sk ∈ st.sessions, sk.id = cid → sk.messages.length ≤ i) :
    addReaction st i e = st ∧
    handleEditMessage st i c now = none ∧
    (∀ (k : Nat) (sk : Session), st.sessions[k]? = some sk →
      ∃ sk' : Session, (togglePinMessage st i).sessions[k]? = some sk' ∧
        sk'.id = sk.id ∧ sk'.name = sk.name ∧
        (sk.id ≠ cid → sk' = sk) ∧
        (sk.id = cid →
          List.Perm sk'.messages sk.messages ∧ pinnedFirst sk'.messages)) := by
  refine ⟨?_, ?_, ?_⟩
  · have hunf : addReaction st i e = { st with sessions := st.sessions.map (fun sk =>
        if sk.id = cid then
          { sk with messages := jsMapIdx (fun idx msg =>
              if idx = i then
                { msg with reactions := setReaction msg.reactions e (getReaction msg.reactions e + 1) }
              else msg) sk.messages }
        else sk) } := by
      unfold addReaction
      rw [h1]
    rw [hunf]
    have hmap : st.sessions.map (fun sk =>
        if sk.id = cid then
          { sk with messages := jsMapIdx (fun idx msg =>
              if idx = i then
                { msg with reactions := setReaction msg.reactions e (getReaction msg.reactions e + 1) }
              else msg) sk.messages }
        else sk) = st.sessions := by
      apply list_map_noop
      intro sk hsk
      by_cases hid : sk.id = cid
      · have hnoop : jsMapIdx (fun idx msg =>
            if idx = i then
              { msg with reactions := setReaction msg.reactions e (getReaction msg.reactions e + 1) }
            else msg) sk.messages = sk.messages :=
          jsMapIdx_update_out_of_range _ i sk.messages (h3 sk hsk hid)
        rw [if_pos hid, hnoop]
      · simp [hid]
    rw [hmap]
  · have hmem : s ∈ st.sessions := List.mem_of_find?_eq_some h2
    have hsid : s.id = cid := by
      have hp := List.find?_some h2
      simp [h1] at hp
      exact hp.symm
    have hlen : s.messages.length ≤ i := h3 s hmem hsid
    unfold handleEditMessage
    rw [h1, h2]
    simp [List.getElem?_eq_none hlen]
  · intro k sk hk
    have hunf : togglePinMessage st i = { st with sessions := st.sessions.map (fun sq =>
        if sq.id = cid then
          { sq with messages := pinSort (jsMapIdx (fun idx msg =>
              if idx = i then { msg with isPinned := !msg.isPinned } else msg) sq.messages) }
        else sq) } := by
      unfold togglePinMessage
      rw [h1]
    have hmemk : sk ∈ st.sessions := mem_of_getElem?_eq_some _ _ _ hk
    by_cases hid : sk.id = cid
    · have hnoop : jsMapIdx (fun idx msg =>
          if idx = i then { msg with isPinned := !msg.isPinned }
          else msg) sk.messages = sk.messages :=
        jsMapIdx_update_out_of_range _ i sk.messages (h3 sk hmemk hid)
      refine ⟨{ sk with messages := pinSort sk.messages }, ?_, rfl, rfl, ?_, ?_⟩
      · rw [hunf]
        show (st.sessions.map _)[k]? = _
        rw [List.getElem?_map, hk]
        simp [hid, hnoop]
      · intro hne
        exact absurd hid hne
      · intro _
        exact ⟨pinSort_perm _, pinSort_pinnedFirst _⟩
    · refine ⟨sk, ?_, rfl, rfl, fun _ => rfl, fun hc => absurd hc hid⟩
      rw [hunf]
      show (st.sessions.map _)[k]? = _
      rw [List.getElem?_map, hk]
      simp [hid]

/-- Witness for the amended C10 on `exStoreQ` at the out-of-range index 5:
the reaction no-op, the edit fault, and the re-sorted toggled session. -/
theorem C10_witness :
    addReaction exStoreQ 5 "+1" = exStoreQ ∧
    handleEditMessage exStoreQ 5 "c" 0 = none ∧
    ∃ sk' : Session, (togglePinMessage exStoreQ 5).sessions[0]? = some sk' ∧
      sk'.id = "s1" := by
  have h := C10_out_of_range exStoreQ "s1"
    { id := "s1", name := "n", messages := [exM0, exM1p] } 5 "+1" "c" 0
    (by decide) (by decide) (by decide)
  obtain ⟨ha, he, ht⟩ := h
  obtain ⟨sk', hsk', hid, -, -, -⟩ := ht 0
    { id := "s1", name := "n", messages := [exM0, exM1p] } (by decide)
  exact ⟨ha, he, sk', hsk', hid⟩

theorem sessionRoles_update_messages (sq : Session) (f : Nat → Message → Message)
    (h : ∀ j m, (f j m).role = m.role) :
    sessionRoles { sq with messages := jsMapIdx f sq.messages } = sessionRoles sq :=
  map_jsMapIdx_of_preserve f (fun m => m.role) h sq.messages

theorem handleSubmit_roles (st : Store) (topic newId : String) (now settle : Int)
    (outcome : Except String String) (k : Nat) (sk : Session)
    (hk : st.sessions[k]? = some sk) :
    ∃ (sk' : Session) (extra : List Role),
      ((handleSubmit st topic newId now settle outcome).1).sessions[k]? = some sk' ∧
      sessionRoles sk' = sessionRoles sk ++ extra := by
  by_cases htopic : topic = ""
  · subst htopic
    exact ⟨sk, [], hk, by simp⟩
  · rcases hcur : st.currentSessionId with _ | cid
    · have hlt := (List.getElem?_eq_some.mp hk).1
      refine ⟨sk, [], ?_, by simp⟩
      have hunf : (handleSubmit st topic newId now settle outcome).1.sessions =
          st.sessions ++ [{ id := newId,
                            name := if jsSlice topic 20 = "" then "New Chat" else jsSlice topic 20,
                            messages := [mkUserMessage topic now] }] := by
        simp [handleSubmit, htopic, hcur]
      rw [hunf, List.getElem?_append]
      simp [hlt, hk]
    · have hunf : (handleSubmit st topic newId now settle outcome).1.sessions =
          (st.sessions.map (fun s =>
            if s.id = cid then { s with messages := s.messages ++ [mkUserMessage topic now] } else s)).map
            (fun s => if cid = s.id then { s with messages := s.messages ++
                         [mkAssistantMessage (match outcome with | .ok t => t | .error _ => apology) settle] } else s) := by
        simp [handleSubmit, htopic, hcur]
      rw [hunf, List.getElem?_map, List.getElem?_map, hk]
      by_cases hid : sk.id = cid
      · refine ⟨_, [Role.user, Role.assistant], rfl, ?_⟩
        simp [hid, sessionRoles, mkUserMessage, mkAssistantMessage]
      · refine ⟨_, [], rfl, ?_⟩
        simp [hid, Ne.symm hid]

/-- C3 counterexample: the claim says no store operation ever changes an
assistant message's content.  On a store whose current session holds a
single assistant message created at time 0, `handleEditMessage` at index 0
within the 5-minute window replaces that assistant message's content with
"edited": the code checks only the edit window, never the role (the
user-only restriction lives in the view, which renders the edit button only
on user messages). -/
theorem C3_counterexample :
    (handleEditMessage exStoreA 0 "edited" 0).map
        (fun st => st.sessions.map (fun s => s.messages.map (fun m => (m.role, m.content))))
      = some [[(Role.assistant, "edited")]] := by
  decide

/-- C3 (amended): `editMessage` checks only that a current session exists
and that the target is inside the 5-minute window — it does not check the
role, so an assistant message within the window is edited too.  A message's
role is still never changed by any operation: `editMessage` and
`addReaction` preserve the role sequence of every session exactly,
`togglePin` permutes each session's roles without changing any,
`deleteSession` only removes whole sessions, and `submitTopic` only appends
newly created messages after the existing ones. -/
theorem C3_roles_immutable_edit_ignores_role (st : Store) :
    (∀ (i : Nat) (c : String) (now : Int) (st' : Store),
      handleEditMessage st i c now = some st' → storeRoles st' = storeRoles st) ∧
    (∀ (i : Nat) (e : String), storeRoles (addReaction st i e) = storeRoles st) ∧
    (∀ i : Nat, List.Forall₂ List.Perm (storeRoles (togglePinMessage st i)) (storeRoles st)) ∧
    (∀ (id : String) (s : Session), s ∈ (handleDeleteSession st id).sessions → s ∈ st.sessions) ∧
    (∀ (topic newId : String) (now settle : Int) (outcome : Except String String)
        (k : Nat) (sk : Session), st.sessions[k]? = some sk →
      ∃ (sk' : Session) (extra : List Role),
        ((handleSubmit st topic newId now settle outcome).1).sessions[k]? = some sk' ∧
        sessionRoles sk' = sessionRoles sk ++ extra) ∧
    (∀ (cid : String) (s : Session) (i : Nat) (msg : Message) (c : String) (now : Int),
      st.currentSessionId = some cid → getCurrentSession st = some s →
      s.messages[i]? = some msg → now - msg.timestamp ≤ 300000 →
      ∃ st' : Store, handleEditMessage st i c now = some st' ∧
        ∃ (s' : Session) (m' : Message), getCurrentSession st' = some s' ∧
          s'.messages[i]? = some m' ∧ m'.content = c ∧ m'.role = msg.role) := by
  refine ⟨?_, ?_, ?_, ?_, ?_, ?_⟩
  · intro i c now st' hed
    rcases hcur : st.currentSessionId with _ | cid
    · have hres : handleEditMessage st i c now = some st := by
        unfold handleEditMessage
        rw [hcur]
      rw [hres] at hed
      obtain rfl := Option.some.inj hed
      rfl
    · rcases hb : (getCurrentSession st).bind (fun s2 => s2.messages[i]?) with _ | msg
      · have hres : handleEditMessage st i c now = none := by
          unfold handleEditMessage
          rw [hcur, hb]
        rw [hres] at hed
        cases hed
      · by_cases htime : now - msg.timestamp > 300000
        · have hres : handleEditMessage st i c now = some st := by
            unfold handleEditMessage
            rw [hcur, hb]
            exact if_pos htime
          rw [hres] at hed
          obtain rfl := Option.some.inj hed
          rfl
        · have hres : handleEditMessage st i c now = some
              { st with sessions := st.sessions.map (fun sq =>
                  if sq.id = cid then
                    { sq with messages := jsMapIdx (fun idx m =>
                        if idx = i then { m with content := c, lastEdited := some now }
                        else m) sq.messages }
                  else sq) } := by
            unfold handleEditMessage
            rw [hcur, hb]
            exact if_neg htime
          rw [hres] at hed
          obtain rfl := Option.some.inj hed
          show storeRoles _ = storeRoles st
          unfold storeRoles
          rw [List.map_map]
          apply List.map_congr_left
          intro sq _
          show sessionRoles (if sq.id = cid then _ else sq) = sessionRoles sq
          by_cases hq : sq.id = cid
          · rw [if_pos hq]
            exact sessionRoles_update_messages sq _
              (fun j m => by by_cases hj : j = i <;> simp [hj])
          · rw [if_neg hq]
  · intro i e
    rcases hcur : st.currentSessionId with _ | cid
    · have hres : addReaction st i e = st := by
        unfold addReaction
        rw [hcur]
      rw [hres]
    · have hres : addReaction st i e =
          { st with sessions := st.sessions.map (fun sq =>
              if sq.id = cid then
                { sq with messages := jsMapIdx (fun idx m =>
                    if idx = i then
                      { m with reactions := setReaction m.reactions e (getReaction m.reactions e + 1) }
                    else m) sq.messages }
              else sq) } := by
        unfold addReaction
        rw [hcur]
      rw [hres]
      unfold storeRoles
      rw [List.map_map]
      apply List.map_congr_left
      intro sq _
      show sessionRoles (if sq.id = cid then _ else sq) = sessionRoles sq
      by_cases hq : sq.id = cid
      · rw [if_pos hq]
        exact sessionRoles_update_messages sq _
          (fun j m => by by_cases hj : j = i <;> simp [hj])
      · rw [if_neg hq]
  · intro i
    rcases hcur : st.currentSessionId with _ | cid
    · have hres : togglePinMessage st i = st := by
        unfold togglePinMessage
        rw [hcur]
      rw [hres]
      exact List.forall₂_same.mpr (fun a _ => List.Perm.refl a)
    · have hres : togglePinMessage st i =
          { st with sessions := st.sessions.map (fun sq =>
              if sq.id = cid then
                { sq with messages := pinSort (jsMapIdx (fun idx msg =>
                    if idx = i then { msg with isPinned := !msg.isPinned }
                    else msg) sq.messages) }
              else sq) } := by
        unfold togglePinMessage
        rw [hcur]
      rw [hres]
      show List.Forall₂ List.Perm ((st.sessions.map _).map sessionRoles)
        (st.sessions.map sessionRoles)
      rw [List.map_map]
      apply forall2_map_map
      intro sq _
      show List.Perm (sessionRoles (if sq.id = cid then _ else sq)) (sessionRoles sq)
      by_cases hq : sq.id = cid
      · rw [if_pos hq]
        have hperm := (pinSort_perm (jsMapIdx (fun idx msg =>
          if idx = i then { msg with isPinned := !msg.isPinned }
          else msg) sq.messages)).map (fun m => m.role)
        have hx : (jsMapIdx (fun idx msg =>
            if idx = i then { msg with isPinned := !msg.isPinned }
            else msg) sq.messages).map (fun m => m.role) = sessionRoles sq :=
          map_jsMapIdx_of_preserve _ _
            (fun j m => by by_cases hj : j = i <;> simp [hj]) sq.messages
        rw [hx] at hperm
        exact hperm
      · rw [if_neg hq]
  · intro id s hs
    exact (List.mem_filter.mp hs).1
  · intro topic newId now settle outcome k sk hk
    exact handleSubmit_roles st topic newId now settle outcome k sk hk
  · intro cid s i msg c now hcur hfind hmsg htime
    have hb : (getCurrentSession st).bind (fun s2 => s2.messages[i]?) = some msg := by
      rw [hfind]
      exact hmsg
    have hnot : ¬ (now - msg.timestamp > 300000) := by omega
    have hsid : s.id = cid := by
      have hp := List.find?_some hfind
      simp [hcur] at hp
      exact hp.symm
    have hres : handleEditMessage st i c now = some
        { st with sessions := st.sessions.map (fun sq =>
            if sq.id = cid then
              { sq with messages := jsMapIdx (fun idx m =>
                  if idx = i then { m with content := c, lastEdited := some now }
                  else m) sq.messages }
            else sq) } := by
      unfold handleEditMessage
      rw [hcur, hb]
      exact if_neg hnot
    refine ⟨_, hres, ?_⟩
    have hfind2 : getCurrentSession
        { st with sessions := st.sessions.map (fun sq =>
            if sq.id = cid then
              { sq with messages := jsMapIdx (fun idx m =>
                  if idx = i then { m with content := c, lastEdited := some now }
                  else m) sq.messages }
            else sq) } = some (if s.id = cid then
          { s with messages := jsMapIdx (fun idx m =>
              if idx = i then { m with content := c, lastEdited := some now }
              else m) s.messages }
          else s) := by
      unfold getCurrentSession
      show (st.sessions.map _).find? _ = _
      rw [List.find?_map]
      have hpred : ((fun sq : Session => decide (st.currentSessionId = some sq.id)) ∘ (fun sq : Session =>
          if sq.id = cid then
            { sq with messages := jsMapIdx (fun idx m =>
                if idx = i then { m with content := c, lastEdited := some now }
                else m) sq.messages }
          else sq)) = (fun sq : Session => decide (st.currentSessionId = some sq.id)) := by
        funext sq
        by_cases hq : sq.id = cid <;> simp [Function.comp, hq]
      rw [hpred]
      rw [show st.sessions.find? (fun sq : Session => decide (st.currentSessionId = some sq.id))
        = some s from hfind]
      simp
    rw [if_pos hsid] at hfind2
    refine ⟨_, { msg with content := c, lastEdited := some now }, hfind2, ?_, rfl, rfl⟩
    show (jsMapIdx (fun idx m =>
      if idx = i then { m with content := c, lastEdited := some now }
      else m) s.messages)[i]? = some { msg with content := c, lastEdited := some now }
    rw [jsMapIdx_getElem?, hmsg]
    simp

/-- Witness for the amended C3 at concrete inputs: `addReaction` preserves
the role sequence of `exStoreA`, and editing its assistant message within
the window succeeds with the role untouched. -/
theorem C3_witness :
    storeRoles (addReaction exStoreA 0 "+1") = storeRoles exStoreA ∧
    ∃ st' : Store, handleEditMessage exStoreA 0 "edited" 0 = some st' ∧
      ∃ (s' : Session) (m' : Message), getCurrentSession st' = some s' ∧
        s'.messages[0]? = some m' ∧ m'.content = "edited" ∧ m'.role = exAsstMsg.role := by
  have h := C3_roles_immutable_edit_ignores_role exStoreA
  refine ⟨h.2.1 0 "+1", ?_⟩
  exact h.2.2.2.2.2 "s1" { id := "s1", name := "n", messages := [exAsstMsg] } 0 exAsstMsg
    "edited" 0 (by decide) (by decide) (by decide) (by decide)
